import Mathlib

/-!
Shallow embedding of qgsdemterraintilegeometry_p.cpp (DEM terrain tile
geometry: mesh builder and ray intersector).

Modelling conventions:
* C++ `float` values are modelled as `Option ℚ`: `none` is IEEE NaN (the
  no-data marker), `some q` a finite value.  Arithmetic on buffers that can
  never hold NaN (the produced vertex floats) uses plain `ℚ`.
* `QByteArray` buffers of floats / quint32 become `List ℚ` / `List ℕ`.
* Out-of-bounds reads (undefined behaviour in C++) are modelled by an
  explicit `junk` parameter giving the value such a read yields, so theorems
  quantifying over `junk` hold whatever the stray read returns.
-/

/-- Qt qBound(min, val, max) = qMax(min, qMin(max, val)). -/
def qBound (lo v hi : ℤ) : ℤ := max lo (min v hi)

/-- Grid step used for positions and texture coordinates:
`dx = dz = du = dv = 1 / (res - 1)` for a unit square footprint. -/
def gridStep (res : ℕ) : ℚ := 1 / ((res : ℚ) - 1)

/-- Clamp of a padded iteration coordinate into the interior sample range,
`qBound(0, p, res - 1)` as in createPlaneVertexData. -/
def clampIdx (res : ℕ) (p : ℤ) : ℤ := qBound 0 p ((res : ℤ) - 1)

/-- Eight interleaved floats of one vertex:
position (x, height, z), texture (u, v), placeholder normal (0,1,0). -/
def vertexFloats8 (res : ℕ) (j i : ℤ) (height : ℚ) : List ℚ :=
  [-(1/2) + ((clampIdx res i : ℤ) : ℚ) * gridStep res,
   height,
   -(1/2) + ((clampIdx res j : ℤ) : ℚ) * gridStep res,
   ((clampIdx res i : ℤ) : ℚ) * gridStep res,
   ((clampIdx res j : ℤ) : ℚ) * gridStep res,
   0, 1, 0]

/-- Height value stored for the vertex at padded coordinate (i, j) in
createPlaneVertexData, given that `c` samples were consumed so far:
an interior vertex consumes the next sample (`*zBits++`), a padding vertex
reads the clamped interior neighbour minus the skirt height; a NaN result is
replaced by the no-data height 0. -/
def vertexHeight (res : ℕ) (s : ℚ) (hs : List (Option ℚ)) (c : ℕ) (j i : ℤ) : ℚ :=
  (if i = clampIdx res i ∧ j = clampIdx res j then
    hs.getD c none
  else
    (hs.getD ((clampIdx res j * res + clampIdx res i).toNat) none).map (fun q => q - s)).getD 0

/-- One vertex emitted by the stateful builder (consumed-count `c`). -/
def emitVertex (res : ℕ) (s : ℚ) (hs : List (Option ℚ)) (c : ℕ) (j i : ℤ) : List ℚ :=
  vertexFloats8 res j i (vertexHeight res s hs c j i)

/-- Inner loop of createPlaneVertexData over x, starting at column `i` with
consumed-count `c`, running `n` iterations; returns the emitted floats and
the final consumed-count. -/
def vertexRowFrom (res : ℕ) (s : ℚ) (hs : List (Option ℚ)) (j : ℤ) :
    ℤ → ℕ → ℕ → List ℚ × ℕ
  | _, c, 0 => ([], c)
  | i, c, n + 1 =>
    let out := emitVertex res s hs c j i
    let c2 := if i = clampIdx res i ∧ j = clampIdx res j then c + 1 else c
    let r := vertexRowFrom res s hs j (i + 1) c2 n
    (out ++ r.1, r.2)

/-- Outer loop of createPlaneVertexData over z, starting at row `j` with
consumed-count `c`, running `n` row iterations. -/
def vertexRowsFrom (res : ℕ) (s : ℚ) (hs : List (Option ℚ)) :
    ℤ → ℕ → ℕ → List ℚ × ℕ
  | _, c, 0 => ([], c)
  | j, c, n + 1 =>
    let row := vertexRowFrom res s hs j (-1) c (res + 2)
    let rest := vertexRowsFrom res s hs (j + 1) row.2 n
    (row.1 ++ rest.1, rest.2)

/-- createPlaneVertexData: iterate j and i over the padded range
[-1, res] with sequential consumption of the height samples. -/
def createPlaneVertexData (res : ℕ) (s : ℚ) (hs : List (Option ℚ)) : List ℚ :=
  (vertexRowsFrom res s hs (-1) 0 (res + 2)).1

/-- Height value a direct-indexing reference builder stores at (i, j): the
interior sample at the clamped row-major index (minus the skirt height on
padding vertices), NaN replaced by 0.  This follows the spec's description
of direct row-major indexing. -/
def vertexHeightDirect (res : ℕ) (s : ℚ) (hs : List (Option ℚ)) (j i : ℤ) : ℚ :=
  (if i = clampIdx res i ∧ j = clampIdx res j then
    hs.getD ((clampIdx res j * res + clampIdx res i).toNat) none
  else
    (hs.getD ((clampIdx res j * res + clampIdx res i).toNat) none).map (fun q => q - s)).getD 0

/-- One vertex of the direct-indexing reference builder. -/
def emitVertexDirect (res : ℕ) (s : ℚ) (hs : List (Option ℚ)) (j i : ℤ) : List ℚ :=
  vertexFloats8 res j i (vertexHeightDirect res s hs j i)

/-- Reference vertex builder using direct row-major indexing over the padded
range [-1, res] × [-1, res]. -/
def createPlaneVertexDataRef (res : ℕ) (s : ℚ) (hs : List (Option ℚ)) : List ℚ :=
  (List.range (res + 2)).flatMap (fun kj =>
    (List.range (res + 2)).flatMap (fun ki =>
      emitVertexDirect res s hs (-1 + (kj : ℤ)) (-1 + (ki : ℤ))))

/-- ijToHeightMapIndex from the source:
`i = qBound(1, i, numVerticesX - 1) - 1; j = qBound(1, j, numVerticesZ - 1) - 1;
return j * (numVerticesX - 2) + i`. -/
def ijToHeightMapIndex (i j nvx nvz : ℤ) : ℤ :=
  (qBound 1 j (nvz - 1) - 1) * (nvx - 2) + (qBound 1 i (nvx - 1) - 1)

/-- Read of `heightMap[k]`: the stored sample when `k` is inside the array,
otherwise the unspecified value `junk k` (out-of-bounds read). -/
def hmRead (hs : List (Option ℚ)) (junk : ℤ → Option ℚ) (k : ℤ) : Option ℚ :=
  if 0 ≤ k then hs.getD k.toNat (junk k) else junk k

/-- isnan test on a modelled float. -/
def isNaNv (v : Option ℚ) : Bool := v.isNone

/-- hasNoData from the source: NaN test of the four lookups at
(i, j), (i+1, j), (i, j+1), (i+1, j+1). -/
def hasNoData (i j : ℤ) (hs : List (Option ℚ)) (junk : ℤ → Option ℚ) (nvx nvz : ℤ) : Bool :=
  isNaNv (hmRead hs junk (ijToHeightMapIndex i j nvx nvz)) ||
  isNaNv (hmRead hs junk (ijToHeightMapIndex (i + 1) j nvx nvz)) ||
  isNaNv (hmRead hs junk (ijToHeightMapIndex i (j + 1) nvx nvz)) ||
  isNaNv (hmRead hs junk (ijToHeightMapIndex (i + 1) (j + 1) nvx nvz))

/-- Six indices emitted for cell (i, j): two degenerate triangles when
hasNoData, otherwise the quad split into two triangles. -/
def cellIndices (res : ℕ) (hs : List (Option ℚ)) (junk : ℤ → Option ℚ) (j i : ℕ) : List ℕ :=
  let rowStartIndex := j * (res + 2)
  let nextRowStartIndex := (j + 1) * (res + 2)
  if hasNoData (i : ℤ) (j : ℤ) hs junk ((res : ℤ) + 2) ((res : ℤ) + 2) then
    [rowStartIndex + i, rowStartIndex + i, rowStartIndex + i,
     rowStartIndex + i, rowStartIndex + i, rowStartIndex + i]
  else
    [rowStartIndex + i, nextRowStartIndex + i, rowStartIndex + i + 1,
     nextRowStartIndex + i, nextRowStartIndex + i + 1, rowStartIndex + i + 1]

/-- createPlaneIndexData: iterate cells j, i over [0, numVertices - 2]. -/
def createPlaneIndexData (res : ℕ) (hs : List (Option ℚ)) (junk : ℤ → Option ℚ) : List ℕ :=
  (List.range (res + 1)).flatMap (fun j =>
    (List.range (res + 1)).flatMap (fun i =>
      cellIndices res hs junk j i))

/-- Eight floats of the vertex at padded coordinate (i, j) inside a vertex
buffer (row-major padded layout, 8 floats per vertex). -/
def vertexBlock (res : ℕ) (buf : List ℚ) (i j : ℤ) : List ℚ :=
  (buf.drop ((((j + 1) * ((res : ℤ) + 2) + (i + 1)).toNat) * 8)).take 8

/-- Six indices of cell (i, j) inside an index buffer. -/
def cellBlock (res : ℕ) (buf : List ℕ) (i j : ℕ) : List ℕ :=
  (buf.drop ((j * (res + 1) + i) * 6)).take 6

/-- Row-major index of the interior sample nearest to the padded-grid vertex
column (or row) `p`: interior column p - 1 clamped into [0, res - 1]. -/
def nearestInterior (res : ℕ) (p : ℤ) : ℤ := qBound 1 p res - 1

/-- Vector of three rational coordinates (QVector3D). -/
abbrev V3 := ℚ × ℚ × ℚ

/-- Componentwise vector addition. -/
def v3add (a b : V3) : V3 := (a.1 + b.1, a.2.1 + b.2.1, a.2.2 + b.2.2)

/-- Componentwise vector subtraction. -/
def v3sub (a b : V3) : V3 := (a.1 - b.1, a.2.1 - b.2.1, a.2.2 - b.2.2)

/-- Scalar multiplication of a vector. -/
def v3smul (t : ℚ) (a : V3) : V3 := (t * a.1, t * a.2.1, t * a.2.2)

/-- Dot product. -/
def v3dot (a b : V3) : ℚ := a.1 * b.1 + a.2.1 * b.2.1 + a.2.2 * b.2.2

/-- Modelled from the spec: QgsRayCastingUtils.Ray3D (its header is not under
src/): a ray with an origin, a direction and a length (`distance`). -/
structure Ray3D where
  origin : V3
  direction : V3
  distance : ℚ

/-- Modelled from the spec: `Ray3D.point t = origin + t * direction` — the
hit point is recomputed as origin plus (t times ray length) times direction. -/
def Ray3D.point (r : Ray3D) (t : ℚ) : V3 := v3add r.origin (v3smul t r.direction)

/-- Modelled from the spec: projected distance of a point along the ray
from the ray origin, `(p - origin) · direction`. -/
def Ray3D.projectedDistance (r : Ray3D) (p : V3) : ℚ := v3dot (v3sub p r.origin) r.direction

/-- Read of `vertices[n]`: the stored float when `n` is inside the vertex
buffer, otherwise the unspecified value `vjunk n` (out-of-bounds read). -/
def vread (vb : List ℚ) (vjunk : ℕ → ℚ) (n : ℕ) : ℚ :=
  if n < vb.length then vb.getD n 0 else vjunk n

/-- Position of vertex `v`: the first 3 of its 8 interleaved floats. -/
def triVertex (vb : List ℚ) (vjunk : ℕ → ℚ) (v : ℕ) : V3 :=
  (vread vb vjunk (v * 8), vread vb vjunk (v * 8 + 1), vread vb vjunk (v * 8 + 2))

/-- Test of triangle `i` inside intersectionDemTriangles: gather the index
triple, read and world-transform the three vertex positions, run the external
ray-triangle primitive `rti` (returning the parameter t on a hit), and on a
hit return the recomputed intersection point together with its projected
distance along the ray. -/
def triTest (rti : Ray3D → V3 → V3 → V3 → Option ℚ) (vb : List ℚ) (ib : List ℕ)
    (vjunk : ℕ → ℚ) (r : Ray3D) (M : V3 → V3) (i : ℕ) : Option (ℚ × V3) :=
  let v0 := ib.getD (i * 3) 0
  let v1 := ib.getD (i * 3 + 1) 0
  let v2 := ib.getD (i * 3 + 2) 0
  match rti r (M (triVertex vb vjunk v0)) (M (triVertex vb vjunk v1))
      (M (triVertex vb vjunk v2)) with
  | some t =>
    some (r.projectedDistance (r.point (t * r.distance)), r.point (t * r.distance))
  | none => none

/-- Loop body of intersectionDemTriangles: keep the hit whose projected
distance is below the current minimum (sentinel -1 = no hit yet). -/
def triangleStep (rti : Ray3D → V3 → V3 → V3 → Option ℚ) (vb : List ℚ) (ib : List ℕ)
    (vjunk : ℕ → ℚ) (r : Ray3D) (M : V3 → V3) (st : ℚ × V3) (i : ℕ) : ℚ × V3 :=
  match triTest rti vb ib vjunk r M i with
  | some dp => if st.1 = -1 ∨ dp.1 < st.1 then dp else st
  | none => st

/-- intersectionDemTriangles: scan `indexCnt / 3` triangles keeping the hit
of smallest projected distance; return its point, or none when the final
minimum distance still equals the sentinel -1. -/
def intersectionDemTriangles (rti : Ray3D → V3 → V3 → V3 → Option ℚ) (vb : List ℚ)
    (ib : List ℕ) (vjunk : ℕ → ℚ) (r : Ray3D) (M : V3 → V3) : Option V3 :=
  let st := (List.range (ib.length / 3)).foldl
    (triangleStep rti vb ib vjunk r M) (-1, ((0 : ℚ), (0 : ℚ), (0 : ℚ)))
  if st.1 ≠ -1 then some st.2 else none

/-- State of a PlaneVertexBufferFunctor: the three construction inputs. -/
structure PlaneVertexBufferFunctor where
  mResolution : ℕ
  mSkirtHeight : ℚ
  mHeightMap : List (Option ℚ)

/-- Invocation `operator()` of PlaneVertexBufferFunctor. -/
def planeVertexBufferFunctorRun (f : PlaneVertexBufferFunctor) : List ℚ :=
  createPlaneVertexData f.mResolution f.mSkirtHeight f.mHeightMap

/-- Equality operator of PlaneVertexBufferFunctor: compares resolution,
skirt height and height map. -/
def planeVertexBufferFunctorEq (a o : PlaneVertexBufferFunctor) : Bool :=
  decide (o.mResolution = a.mResolution) && decide (o.mSkirtHeight = a.mSkirtHeight) &&
    decide (o.mHeightMap = a.mHeightMap)

/-- State of a PlaneIndexBufferFunctor: the two construction inputs. -/
structure PlaneIndexBufferFunctor where
  mResolution : ℕ
  mHeightMap : List (Option ℚ)

/-- Invocation `operator()` of PlaneIndexBufferFunctor. -/
def planeIndexBufferFunctorRun (f : PlaneIndexBufferFunctor) (junk : ℤ → Option ℚ) : List ℕ :=
  createPlaneIndexData f.mResolution f.mHeightMap junk

/-- Equality operator of PlaneIndexBufferFunctor: compares the resolution
only (mHeightMap is not compared in the source). -/
def planeIndexBufferFunctorEq (a o : PlaneIndexBufferFunctor) : Bool :=
  decide (o.mResolution = a.mResolution)

lemma length_flatMap_const {α : Type} (f : ℕ → List α) (m : ℕ) :
    ∀ L : List ℕ, (∀ a ∈ L, (f a).length = m) → (L.flatMap f).length = L.length * m := by
  intro L
  induction L with
  | nil => intro _; simp
  | cons a t ih =>
    intro h
    simp only [List.flatMap_cons, List.length_append, List.length_cons]
    rw [ih (fun b hb => h b (List.mem_cons_of_mem a hb)), h a (List.mem_cons_self a t)]
    ring

lemma flatMap_drop_block {α : Type} (f : ℕ → List α) (m : ℕ) :
    ∀ (L : List ℕ) (k : ℕ), (∀ a ∈ L, (f a).length = m) → k ≤ L.length →
      (L.flatMap f).drop (k * m) = (L.drop k).flatMap f := by
  intro L
  induction L with
  | nil =>
    intro k _ hk
    have : k = 0 := by simpa using hk
    simp [this]
  | cons a t ih =>
    intro k h hk
    cases k with
    | zero => simp
    | succ k =>
      simp only [List.flatMap_cons, List.drop_succ_cons]
      have ha : (f a).length = m := h a (List.mem_cons_self a t)
      have hm : (k + 1) * m = (f a).length + k * m := by rw [ha]; ring
      rw [hm, List.drop_append,
        ih k (fun b hb => h b (List.mem_cons_of_mem a hb)) (by simpa using hk)]

lemma range_flatMap_block {α : Type} (f : ℕ → List α) (m : ℕ)
    (hf : ∀ a, (f a).length = m) {k n : ℕ} (hk : k < n) :
    (((List.range n).flatMap f).drop (k * m)).take m = f k := by
  rw [flatMap_drop_block f m (List.range n) k (fun a _ => hf a) (by simpa using hk.le),
    List.drop_eq_getElem_cons (by simpa using hk), List.getElem_range, List.flatMap_cons]
  exact List.take_left' (hf k)

lemma nested_flatMap_block {α : Type} (G : ℕ → ℕ → List α) (m N2 : ℕ)
    (hG : ∀ a b, (G a b).length = m) {kj ki N1 : ℕ} (h1 : kj < N1) (h2 : ki < N2) :
    (((List.range N1).flatMap (fun a => (List.range N2).flatMap (G a))).drop
      ((kj * N2 + ki) * m)).take m = G kj ki := by
  have hF : ∀ a, ((List.range N2).flatMap (G a)).length = N2 * m := by
    intro a
    rw [length_flatMap_const (G a) m _ (fun b _ => hG a b), List.length_range]
  have hoff : (kj * N2 + ki) * m = kj * (N2 * m) + ki * m := by ring
  rw [hoff, ← List.drop_drop]
  rw [flatMap_drop_block _ (N2 * m) (List.range N1) kj (fun a _ => hF a)
    (by rw [List.length_range]; exact h1.le)]
  rw [@List.drop_eq_getElem_cons _ kj (List.range N1) (by rw [List.length_range]; exact h1)]
  rw [List.getElem_range, List.flatMap_cons]
  rw [List.drop_append_of_le_length (by rw [hF kj]; exact Nat.mul_le_mul_right m h2.le)]
  have hexp : (ki + 1) * m = ki * m + m := by ring
  have hstep : (ki + 1) * m ≤ N2 * m := Nat.mul_le_mul_right m h2
  have htake : m ≤ (((List.range N2).flatMap (G kj)).drop (ki * m)).length := by
    rw [List.length_drop, hF kj]
    omega
  rw [List.take_append_of_le_length htake]
  exact range_flatMap_block (G kj) m (hG kj) h2

lemma clampIdx_eq_self {res : ℕ} {p : ℤ} (h0 : 0 ≤ p) (h1 : p ≤ (res : ℤ) - 1) :
    clampIdx res p = p := by
  unfold clampIdx qBound; omega

lemma interior_iff {res : ℕ} (hres : 1 ≤ res) {p : ℤ} :
    p = clampIdx res p ↔ 0 ≤ p ∧ p ≤ (res : ℤ) - 1 := by
  unfold clampIdx qBound
  omega

lemma emitVertex_eq_direct (res : ℕ) (s : ℚ) (hs : List (Option ℚ)) (c : ℕ) (j i : ℤ)
    (h : i = clampIdx res i → j = clampIdx res j →
      (c : ℤ) = clampIdx res j * res + clampIdx res i) :
    emitVertex res s hs c j i = emitVertexDirect res s hs j i := by
  unfold emitVertex emitVertexDirect vertexHeight vertexHeightDirect
  by_cases h1 : i = clampIdx res i ∧ j = clampIdx res j
  · have hc := h h1.1 h1.2
    have hcn : c = (clampIdx res j * res + clampIdx res i).toNat := by omega
    rw [if_pos h1, if_pos h1, hcn]
  · rw [if_neg h1, if_neg h1]

lemma range_flatMap_shift {α : Type} (f : ℕ → List α) (n : ℕ) :
    (List.range (n + 1)).flatMap f = f 0 ++ (List.range n).flatMap (fun k => f (k + 1)) := by
  rw [List.range_succ_eq_map, List.flatMap_cons, List.flatMap_map]

lemma emitRow_shift (res : ℕ) (s : ℚ) (hs : List (Option ℚ)) (j i : ℤ) (n : ℕ) :
    (List.range (n + 1)).flatMap (fun k => emitVertexDirect res s hs j (i + (k : ℤ))) =
      emitVertexDirect res s hs j i ++
        (List.range n).flatMap (fun k => emitVertexDirect res s hs j (i + 1 + (k : ℤ))) := by
  rw [range_flatMap_shift]
  simp only [Nat.cast_zero, add_zero]
  congr 1
  apply List.flatMap_congr
  intro k _
  have hk : i + ((k + 1 : ℕ) : ℤ) = i + 1 + (k : ℤ) := by push_cast; ring
  rw [hk]

lemma vertexRowFrom_padding (res : ℕ) (s : ℚ) (hs : List (Option ℚ)) (j : ℤ)
    (hj : ¬ j = clampIdx res j) :
    ∀ (n : ℕ) (i : ℤ) (c : ℕ),
      vertexRowFrom res s hs j i c n =
        ((List.range n).flatMap (fun k => emitVertexDirect res s hs j (i + (k : ℤ))), c) := by
  intro n
  induction n with
  | zero => intro i c; simp [vertexRowFrom]
  | succ n ih =>
    intro i c
    simp only [vertexRowFrom]
    rw [if_neg (fun h => hj h.2), ih (i + 1) c,
      emitVertex_eq_direct res s hs c j i (fun _ h2 => absurd h2 hj), emitRow_shift]

lemma vertexRowFrom_interior (res : ℕ) (s : ℚ) (hs : List (Option ℚ)) (j : ℤ)
    (hres : 1 ≤ res) (hj0 : 0 ≤ j) (hj1 : j ≤ (res : ℤ) - 1) :
    ∀ (n : ℕ) (i : ℤ) (c : ℕ), -1 ≤ i → (c : ℤ) = j * res + qBound 0 i res →
      vertexRowFrom res s hs j i c n =
        ((List.range n).flatMap (fun k => emitVertexDirect res s hs j (i + (k : ℤ))),
         (j * (res : ℤ) + qBound 0 (i + (n : ℤ)) res).toNat) := by
  intro n
  induction n with
  | zero =>
    intro i c hi hc
    simp only [vertexRowFrom, List.range_zero, List.flatMap_nil, Nat.cast_zero, add_zero,
      Prod.mk.injEq]
    exact ⟨trivial, by omega⟩
  | succ n ih =>
    intro i c hi hc
    have hj' : j = clampIdx res j := (interior_iff hres).mpr ⟨hj0, hj1⟩
    simp only [vertexRowFrom]
    by_cases hint : i = clampIdx res i
    · have hib := (interior_iff hres).mp hint
      rw [if_pos ⟨hint, hj'⟩]
      have hc2 : ((c + 1 : ℕ) : ℤ) = j * res + qBound 0 (i + 1) res := by
        unfold qBound at hc ⊢
        push_cast at hc ⊢
        omega
      rw [ih (i + 1) (c + 1) (by omega) hc2]
      have hemit : emitVertex res s hs c j i = emitVertexDirect res s hs j i := by
        apply emitVertex_eq_direct
        intro h1 h2
        rw [← h1, ← h2]
        have hq : qBound 0 i res = i := by unfold qBound; omega
        rw [hc, hq]
      rw [hemit, emitRow_shift]
      have harg : i + 1 + (n : ℤ) = i + ((n + 1 : ℕ) : ℤ) := by push_cast; ring
      rw [harg]
    · rw [if_neg (fun h => hint h.1), ih (i + 1) c (by omega) ?inv]
      case inv =>
        have hni : ¬(0 ≤ i ∧ i ≤ (res : ℤ) - 1) := fun hb => hint ((interior_iff hres).mpr hb)
        unfold qBound at hc ⊢
        omega
      have hemit : emitVertex res s hs c j i = emitVertexDirect res s hs j i :=
        emitVertex_eq_direct res s hs c j i (fun h1 _ => absurd h1 hint)
      rw [hemit, emitRow_shift]
      have harg : i + 1 + (n : ℤ) = i + ((n + 1 : ℕ) : ℤ) := by push_cast; ring
      rw [harg]

lemma rowsOuter_shift (res : ℕ) (s : ℚ) (hs : List (Option ℚ)) (j : ℤ) (n : ℕ) :
    (List.range (n + 1)).flatMap (fun kj =>
      (List.range (res + 2)).flatMap (fun ki =>
        emitVertexDirect res s hs (j + (kj : ℤ)) (-1 + (ki : ℤ)))) =
      ((List.range (res + 2)).flatMap (fun ki =>
        emitVertexDirect res s hs j (-1 + (ki : ℤ)))) ++
        (List.range n).flatMap (fun kj =>
          (List.range (res + 2)).flatMap (fun ki =>
            emitVertexDirect res s hs (j + 1 + (kj : ℤ)) (-1 + (ki : ℤ)))) := by
  rw [range_flatMap_shift]
  simp only [Nat.cast_zero, add_zero]
  congr 1
  apply List.flatMap_congr
  intro kj _
  have hk : j + ((kj + 1 : ℕ) : ℤ) = j + 1 + (kj : ℤ) := by push_cast; ring
  rw [hk]

lemma vertexRowsFrom_spec (res : ℕ) (hres : 2 ≤ res) (s : ℚ) (hs : List (Option ℚ)) :
    ∀ (n : ℕ) (j : ℤ) (c : ℕ), -1 ≤ j → (c : ℤ) = qBound 0 j res * res →
      (vertexRowsFrom res s hs j c n).1 =
        (List.range n).flatMap (fun kj =>
          (List.range (res + 2)).flatMap (fun ki =>
            emitVertexDirect res s hs (j + (kj : ℤ)) (-1 + (ki : ℤ)))) := by
  intro n
  induction n with
  | zero => intro j c _ _; simp [vertexRowsFrom]
  | succ n ih =>
    intro j c hj hc
    simp only [vertexRowsFrom]
    by_cases hjint : j = clampIdx res j
    · have hjb := (interior_iff (by omega)).mp hjint
      have hinv : (c : ℤ) = j * res + qBound 0 (-1) (res : ℤ) := by
        have h1 : qBound 0 j (res : ℤ) = j := by unfold qBound; omega
        have h2 : qBound 0 (-1) (res : ℤ) = 0 := by unfold qBound; omega
        rw [h2, hc, h1, add_zero]
      rw [vertexRowFrom_interior res s hs j (by omega) hjb.1 hjb.2 (res + 2) (-1) c
        (by omega) hinv]
      have hq : qBound 0 (-1 + ((res + 2 : ℕ) : ℤ)) (res : ℤ) = (res : ℤ) := by
        unfold qBound; push_cast; omega
      have hnext : (((j * (res : ℤ) +
          qBound 0 (-1 + ((res + 2 : ℕ) : ℤ)) (res : ℤ)).toNat : ℕ) : ℤ) =
          qBound 0 (j + 1) (res : ℤ) * res := by
        rw [hq]
        have h3 : qBound 0 (j + 1) (res : ℤ) = j + 1 := by unfold qBound; omega
        rw [h3]
        have hpos : 0 ≤ j * (res : ℤ) + res :=
          add_nonneg (mul_nonneg hjb.1 (by positivity)) (by positivity)
        rw [Int.toNat_of_nonneg hpos]
        ring
      rw [ih (j + 1) _ (by omega) hnext]
      exact (rowsOuter_shift res s hs j n).symm
    · rw [vertexRowFrom_padding res s hs j hjint (res + 2) (-1) c]
      have hni : ¬(0 ≤ j ∧ j ≤ (res : ℤ) - 1) := fun hb => hjint ((interior_iff (by omega)).mpr hb)
      have hnext : (c : ℤ) = qBound 0 (j + 1) (res : ℤ) * res := by
        have hsame : qBound 0 (j + 1) (res : ℤ) = qBound 0 j (res : ℤ) := by
          unfold qBound; omega
        rw [hsame]; exact hc
      rw [ih (j + 1) c (by omega) hnext]
      exact (rowsOuter_shift res s hs j n).symm

lemma createPlaneVertexData_eq_ref (res : ℕ) (hres : 2 ≤ res) (s : ℚ) (hs : List (Option ℚ)) :
    createPlaneVertexData res s hs = createPlaneVertexDataRef res s hs := by
  unfold createPlaneVertexData createPlaneVertexDataRef
  have h0 : ((0 : ℕ) : ℤ) = qBound 0 (-1) (res : ℤ) * res := by
    have hz : qBound 0 (-1) (res : ℤ) = 0 := by unfold qBound; omega
    rw [hz]
    simp
  rw [vertexRowsFrom_spec res hres s hs (res + 2) (-1) 0 (by omega) h0]

lemma emitVertexDirect_length (res : ℕ) (s : ℚ) (hs : List (Option ℚ)) (j i : ℤ) :
    (emitVertexDirect res s hs j i).length = 8 := rfl

lemma vertexBlock_ref (res : ℕ) (s : ℚ) (hs : List (Option ℚ)) {i j : ℤ}
    (hi1 : -1 ≤ i) (hi2 : i ≤ res) (hj1 : -1 ≤ j) (hj2 : j ≤ res) :
    vertexBlock res (createPlaneVertexDataRef res s hs) i j = emitVertexDirect res s hs j i := by
  obtain ⟨kj, hkj⟩ : ∃ k : ℕ, j + 1 = (k : ℤ) :=
    ⟨(j + 1).toNat, (Int.toNat_of_nonneg (by omega)).symm⟩
  obtain ⟨ki, hki⟩ : ∃ k : ℕ, i + 1 = (k : ℤ) :=
    ⟨(i + 1).toNat, (Int.toNat_of_nonneg (by omega)).symm⟩
  unfold vertexBlock createPlaneVertexDataRef
  have harg : ((j + 1) * ((res : ℤ) + 2) + (i + 1)).toNat = kj * (res + 2) + ki := by
    rw [hkj, hki]
    have hcast : (kj : ℤ) * ((res : ℤ) + 2) + (ki : ℤ) = ((kj * (res + 2) + ki : ℕ) : ℤ) := by
      push_cast; ring
    rw [hcast, Int.toNat_natCast]
  rw [harg]
  have hkj2 : kj < res + 2 := by omega
  have hki2 : ki < res + 2 := by omega
  rw [nested_flatMap_block
    (fun a b => emitVertexDirect res s hs (-1 + (a : ℤ)) (-1 + (b : ℤ))) 8 (res + 2)
    (fun a b => rfl) hkj2 hki2]
  have e1 : -1 + (kj : ℤ) = j := by omega
  have e2 : -1 + (ki : ℤ) = i := by omega
  rw [e1, e2]

lemma vertexBlock_code (res : ℕ) (hres : 2 ≤ res) (s : ℚ) (hs : List (Option ℚ)) {i j : ℤ}
    (hi1 : -1 ≤ i) (hi2 : i ≤ res) (hj1 : -1 ≤ j) (hj2 : j ≤ res) :
    vertexBlock res (createPlaneVertexData res s hs) i j = emitVertexDirect res s hs j i := by
  rw [createPlaneVertexData_eq_ref res hres s hs]
  exact vertexBlock_ref res s hs hi1 hi2 hj1 hj2

lemma createPlaneVertexData_length (res : ℕ) (hres : 2 ≤ res) (s : ℚ) (hs : List (Option ℚ)) :
    (createPlaneVertexData res s hs).length = 8 * (res + 2) ^ 2 := by
  rw [createPlaneVertexData_eq_ref res hres s hs]
  unfold createPlaneVertexDataRef
  rw [length_flatMap_const _ ((res + 2) * 8) _ ?hrow, List.length_range]
  · ring
  case hrow =>
    intro a _
    rw [length_flatMap_const _ 8 _ (fun b _ => emitVertexDirect_length res s hs _ _),
      List.length_range]

lemma cellIndices_length (res : ℕ) (hs : List (Option ℚ)) (junk : ℤ → Option ℚ) (j i : ℕ) :
    (cellIndices res hs junk j i).length = 6 := by
  unfold cellIndices
  split <;> rfl

lemma createPlaneIndexData_length (res : ℕ) (hs : List (Option ℚ)) (junk : ℤ → Option ℚ) :
    (createPlaneIndexData res hs junk).length = 3 * (2 * (res + 1) ^ 2) := by
  unfold createPlaneIndexData
  rw [length_flatMap_const _ ((res + 1) * 6) _ ?hrow, List.length_range]
  · ring
  case hrow =>
    intro a _
    rw [length_flatMap_const _ 6 _ (fun b _ => cellIndices_length res hs junk a b),
      List.length_range]

lemma cellBlock_indexData (res : ℕ) (hs : List (Option ℚ)) (junk : ℤ → Option ℚ) {i j : ℕ}
    (hi : i < res + 1) (hj : j < res + 1) :
    cellBlock res (createPlaneIndexData res hs junk) i j = cellIndices res hs junk j i := by
  unfold cellBlock createPlaneIndexData
  exact nested_flatMap_block (fun a b => cellIndices res hs junk a b) 6 (res + 1)
    (fun a b => cellIndices_length res hs junk a b) hj hi

lemma getD_one_emitVertexDirect (res : ℕ) (s : ℚ) (hs : List (Option ℚ)) (j i : ℤ) :
    (emitVertexDirect res s hs j i).getD 1 0 = vertexHeightDirect res s hs j i := rfl

lemma clampIdx_bounds (res : ℕ) (hres : 1 ≤ res) (p : ℤ) :
    0 ≤ clampIdx res p ∧ clampIdx res p ≤ (res : ℤ) - 1 := by
  unfold clampIdx qBound
  omega

lemma clampIdx_toNat_lt (res : ℕ) (hres : 1 ≤ res) (i j : ℤ) :
    (clampIdx res j * res + clampIdx res i).toNat < res * res := by
  have ha := clampIdx_bounds res hres j
  have hb := clampIdx_bounds res hres i
  have hm : clampIdx res j * (res : ℤ) ≤ ((res : ℤ) - 1) * res :=
    mul_le_mul_of_nonneg_right ha.2 (by positivity)
  have hd0 : 0 ≤ clampIdx res j * (res : ℤ) := mul_nonneg ha.1 (by positivity)
  have hr : ((res : ℤ) - 1) * (res : ℤ) = (res : ℤ) * res - res := by ring
  have hcast : ((res * res : ℕ) : ℤ) = (res : ℤ) * res := by push_cast; ring
  omega

lemma getD_replicate_of_lt {α : Type} (a d : α) {k n : ℕ} (h : k < n) :
    (List.replicate n a).getD k d = a := by
  rw [List.getD_eq_getElem?_getD, List.getElem?_replicate, if_pos h]
  rfl

/-- C1: for every resolution ≥ 2 and every height sample array of length
resolution² (whatever its NaN content), the vertex builder returns exactly
8·(resolution+2)² floats and the index builder exactly 3·2·(resolution+1)²
indices. -/
theorem claim_C1_buffer_sizes (res : ℕ) (s : ℚ) (hs : List (Option ℚ))
    (junk : ℤ → Option ℚ) (hres : 2 ≤ res) (hlen : hs.length = res * res) :
    (createPlaneVertexData res s hs).length = 8 * (res + 2) ^ 2 ∧
    (createPlaneIndexData res hs junk).length = 3 * (2 * (res + 1) ^ 2) :=
  ⟨createPlaneVertexData_length res hres s hs, createPlaneIndexData_length res hs junk⟩

/-- Witness for C1 at resolution 2 with a NaN sample. -/
theorem claim_C1_buffer_sizes_witness :
    (createPlaneVertexData 2 5 [some 1, none, some 3, some 4]).length = 8 * (2 + 2) ^ 2 ∧
    (createPlaneIndexData 2 [some 1, none, some 3, some 4] (fun _ => none)).length =
      3 * (2 * (2 + 1) ^ 2) :=
  claim_C1_buffer_sizes 2 5 [some 1, none, some 3, some 4] (fun _ => none)
    (by norm_num) (by norm_num)

/-- C5: for a flat sample grid of constant elevation h and skirt height s,
every padding vertex (clamped on at least one axis) stores height h - s and
every interior vertex stores height h. -/
theorem claim_C5_flat_grid_heights (res : ℕ) (h s : ℚ) (i j : ℤ) (hres : 2 ≤ res)
    (hi1 : -1 ≤ i) (hi2 : i ≤ res) (hj1 : -1 ≤ j) (hj2 : j ≤ res) :
    (¬(i = clampIdx res i ∧ j = clampIdx res j) →
      (vertexBlock res (createPlaneVertexData res s (List.replicate (res * res) (some h)))
        i j).getD 1 0 = h - s) ∧
    ((i = clampIdx res i ∧ j = clampIdx res j) →
      (vertexBlock res (createPlaneVertexData res s (List.replicate (res * res) (some h)))
        i j).getD 1 0 = h) := by
  rw [vertexBlock_code res hres s (List.replicate (res * res) (some h)) hi1 hi2 hj1 hj2,
    getD_one_emitVertexDirect]
  unfold vertexHeightDirect
  have hget : (List.replicate (res * res) (some h)).getD
      ((clampIdx res j * res + clampIdx res i).toNat) none = some h :=
    getD_replicate_of_lt _ _ (clampIdx_toNat_lt res (by omega) i j)
  constructor
  · intro hpad
    rw [if_neg hpad, hget]
    rfl
  · intro hint
    rw [if_pos hint, hget]
    rfl

/-- Witness for C5 at resolution 2, elevation 7, skirt 3, at the padding
vertex (-1, 0) and interior vertex (1, 1). -/
theorem claim_C5_flat_grid_heights_witness :
    ((¬((-1 : ℤ) = clampIdx 2 (-1) ∧ (0 : ℤ) = clampIdx 2 0) →
      (vertexBlock 2 (createPlaneVertexData 2 3 (List.replicate (2 * 2) (some 7)))
        (-1) 0).getD 1 0 = 7 - 3) ∧
     (((-1 : ℤ) = clampIdx 2 (-1) ∧ (0 : ℤ) = clampIdx 2 0) →
      (vertexBlock 2 (createPlaneVertexData 2 3 (List.replicate (2 * 2) (some 7)))
        (-1) 0).getD 1 0 = 7)) ∧
    ((¬((1 : ℤ) = clampIdx 2 1 ∧ (1 : ℤ) = clampIdx 2 1) →
      (vertexBlock 2 (createPlaneVertexData 2 3 (List.replicate (2 * 2) (some 7)))
        1 1).getD 1 0 = 7 - 3) ∧
     (((1 : ℤ) = clampIdx 2 1 ∧ (1 : ℤ) = clampIdx 2 1) →
      (vertexBlock 2 (createPlaneVertexData 2 3 (List.replicate (2 * 2) (some 7)))
        1 1).getD 1 0 = 7)) :=
  ⟨claim_C5_flat_grid_heights 2 7 3 (-1) 0 (by norm_num) (by norm_num) (by norm_num)
      (by norm_num) (by norm_num),
    claim_C5_flat_grid_heights 2 7 3 1 1 (by norm_num) (by norm_num) (by norm_num)
      (by norm_num) (by norm_num)⟩

/-- C6: the sequential-consumption traversal refines direct indexing — the
stateful builder's buffer is identical to the direct row-major reference
builder's, and each interior vertex (i, j) stores the sample at row-major
index j·res + i (NaN replaced by the no-data height 0). -/
theorem claim_C6_sequential_refines_direct (res : ℕ) (s : ℚ) (hs : List (Option ℚ))
    (hres : 2 ≤ res) :
    createPlaneVertexData res s hs = createPlaneVertexDataRef res s hs ∧
    ∀ i j : ℤ, 0 ≤ i → i ≤ (res : ℤ) - 1 → 0 ≤ j → j ≤ (res : ℤ) - 1 →
      (vertexBlock res (createPlaneVertexData res s hs) i j).getD 1 0 =
        (hs.getD ((j * res + i).toNat) none).getD 0 := by
  refine ⟨createPlaneVertexData_eq_ref res hres s hs, ?_⟩
  intro i j hi0 hi1 hj0 hj1
  rw [vertexBlock_code res hres s hs (by omega) (by omega) (by omega) (by omega),
    getD_one_emitVertexDirect]
  unfold vertexHeightDirect
  have hci : clampIdx res i = i := clampIdx_eq_self hi0 hi1
  have hcj : clampIdx res j = j := clampIdx_eq_self hj0 hj1
  rw [if_pos ⟨hci.symm, hcj.symm⟩, hci, hcj]

/-- Witness for C6 at resolution 2 with a NaN sample, also checking the
interior vertex (1, 0). -/
theorem claim_C6_sequential_refines_direct_witness :
    createPlaneVertexData 2 1 [some 5, none, some 3, some 7] =
      createPlaneVertexDataRef 2 1 [some 5, none, some 3, some 7] ∧
    (vertexBlock 2 (createPlaneVertexData 2 1 [some 5, none, some 3, some 7]) 1 0).getD 1 0 =
      (([some 5, none, some 3, some 7] : List (Option ℚ)).getD (((0 : ℤ) * 2 + 1).toNat)
        none).getD 0 :=
  ⟨(claim_C6_sequential_refines_direct 2 1 [some 5, none, some 3, some 7] (by norm_num)).1,
    (claim_C6_sequential_refines_direct 2 1 [some 5, none, some 3, some 7] (by norm_num)).2
      1 0 (by norm_num) (by norm_num) (by norm_num) (by norm_num)⟩

/-- C9 (amended): every vertex's x and u (and symmetrically z and v) use the
clamped padded coordinate — a padding vertex's position and texture
coordinate on the clamped axis coincide with the nearest interior vertex's
(x = -1/2 + clamp(i)·d, u = clamp(i)·d with d = 1/(res-1)), they are not
extrapolated one grid step beyond the interior extent. -/
theorem claim_C9_amended_padding_coords (res : ℕ) (s : ℚ) (hs : List (Option ℚ)) (i j : ℤ)
    (hres : 2 ≤ res) (hi1 : -1 ≤ i) (hi2 : i ≤ res) (hj1 : -1 ≤ j) (hj2 : j ≤ res) :
    (vertexBlock res (createPlaneVertexData res s hs) i j).getD 0 0 =
      -(1/2) + ((clampIdx res i : ℤ) : ℚ) * gridStep res ∧
    (vertexBlock res (createPlaneVertexData res s hs) i j).getD 3 0 =
      ((clampIdx res i : ℤ) : ℚ) * gridStep res ∧
    (vertexBlock res (createPlaneVertexData res s hs) i j).getD 2 0 =
      -(1/2) + ((clampIdx res j : ℤ) : ℚ) * gridStep res ∧
    (vertexBlock res (createPlaneVertexData res s hs) i j).getD 4 0 =
      ((clampIdx res j : ℤ) : ℚ) * gridStep res := by
  rw [vertexBlock_code res hres s hs hi1 hi2 hj1 hj2]
  exact ⟨rfl, rfl, rfl, rfl⟩

/-- Witness for the amended C9 at resolution 2, padding vertex (-1, 0). -/
theorem claim_C9_amended_padding_coords_witness :
    (vertexBlock 2 (createPlaneVertexData 2 0 (List.replicate 4 (some 1))) (-1) 0).getD 0 0 =
      -(1/2) + ((clampIdx 2 (-1) : ℤ) : ℚ) * gridStep 2 ∧
    (vertexBlock 2 (createPlaneVertexData 2 0 (List.replicate 4 (some 1))) (-1) 0).getD 3 0 =
      ((clampIdx 2 (-1) : ℤ) : ℚ) * gridStep 2 ∧
    (vertexBlock 2 (createPlaneVertexData 2 0 (List.replicate 4 (some 1))) (-1) 0).getD 2 0 =
      -(1/2) + ((clampIdx 2 0 : ℤ) : ℚ) * gridStep 2 ∧
    (vertexBlock 2 (createPlaneVertexData 2 0 (List.replicate 4 (some 1))) (-1) 0).getD 4 0 =
      ((clampIdx 2 0 : ℤ) : ℚ) * gridStep 2 :=
  claim_C9_amended_padding_coords 2 0 (List.replicate 4 (some 1)) (-1) 0
    (by norm_num) (by norm_num) (by norm_num) (by norm_num) (by norm_num)

/-- Counterexample to C9 as stated: at resolution 2 the padding vertex at
padded column -1 has x = -1/2 and u = 0 (clamped), not the extrapolated
x = -1/2 - d and u = -d. -/
theorem claim_C9_counterexample :
    ¬((vertexBlock 2 (createPlaneVertexData 2 0 (List.replicate 4 (some 1))) (-1) 0).getD 0 0 =
        -(1/2) - gridStep 2 ∧
      (vertexBlock 2 (createPlaneVertexData 2 0 (List.replicate 4 (some 1))) (-1) 0).getD 3 0 =
        -(gridStep 2)) := by
  intro hcl
  have hx : (vertexBlock 2 (createPlaneVertexData 2 0 (List.replicate 4 (some 1)))
      (-1) 0).getD 0 0 = -(1/2) := by
    rw [vertexBlock_code 2 (by norm_num) 0 (List.replicate 4 (some 1))
      (by norm_num) (by norm_num) (by norm_num) (by norm_num)]
    show -(1/2) + ((clampIdx 2 (-1) : ℤ) : ℚ) * gridStep 2 = -(1/2)
    have hcl0 : clampIdx 2 (-1) = 0 := by decide
    rw [hcl0]
    norm_num
  rw [hx] at hcl
  have hfalse := hcl.1
  rw [gridStep] at hfalse
  norm_num at hfalse

lemma getD_default_irrel {α : Type} (l : List α) {k : ℕ} (h : k < l.length) (d1 d2 : α) :
    l.getD k d1 = l.getD k d2 := by
  rw [List.getD_eq_getElem?_getD, List.getD_eq_getElem?_getD, List.getElem?_eq_getElem h]
  rfl

lemma codeIdx_eq_nearest (res : ℕ) {a b : ℤ} (ha0 : 0 ≤ a) (ha : a ≤ res)
    (hb0 : 0 ≤ b) (hb : b ≤ res) :
    ijToHeightMapIndex a b ((res : ℤ) + 2) ((res : ℤ) + 2) =
      nearestInterior res b * res + nearestInterior res a := by
  unfold ijToHeightMapIndex nearestInterior qBound
  have h2 : (res : ℤ) + 2 - 2 = res := by ring
  have key1 : max 1 (min a ((res : ℤ) + 2 - 1)) = max 1 (min a res) := by omega
  have key2 : max 1 (min b ((res : ℤ) + 2 - 1)) = max 1 (min b res) := by omega
  rw [h2, key1, key2]

lemma hasNoData_corner_true (res : ℕ) (hs : List (Option ℚ)) (junk : ℤ → Option ℚ)
    {A B : ℤ} (hres : 1 ≤ res) (hlen : hs.length = res * res)
    (hA0 : 0 ≤ A) (hA : A ≤ res) (hB0 : 0 ≤ B) (hB : B ≤ res)
    (hnan : hs.getD ((nearestInterior res B * res + nearestInterior res A).toNat) none = none) :
    isNaNv (hmRead hs junk (ijToHeightMapIndex A B ((res : ℤ) + 2) ((res : ℤ) + 2))) = true := by
  rw [codeIdx_eq_nearest res hA0 hA hB0 hB]
  have hb1 : 0 ≤ nearestInterior res A ∧ nearestInterior res A ≤ (res : ℤ) - 1 := by
    unfold nearestInterior qBound; omega
  have hb2 : 0 ≤ nearestInterior res B ∧ nearestInterior res B ≤ (res : ℤ) - 1 := by
    unfold nearestInterior qBound; omega
  have hm : nearestInterior res B * (res : ℤ) ≤ ((res : ℤ) - 1) * res :=
    mul_le_mul_of_nonneg_right hb2.2 (by positivity)
  have hd0 : 0 ≤ nearestInterior res B * (res : ℤ) := mul_nonneg hb2.1 (by positivity)
  have hr : ((res : ℤ) - 1) * (res : ℤ) = (res : ℤ) * res - res := by ring
  have hcast : ((res * res : ℕ) : ℤ) = (res : ℤ) * res := by push_cast; ring
  have hpos : 0 ≤ nearestInterior res B * res + nearestInterior res A := by omega
  have hlt : (nearestInterior res B * res + nearestInterior res A).toNat < hs.length := by
    rw [hlen]; omega
  unfold hmRead
  rw [if_pos hpos, getD_default_irrel hs hlt _ none, hnan]
  rfl

/-- C2: for every resolution ≥ 2, cell (i, j) of the padded grid and sample
grid of length resolution², if any of the four interior samples touching the
cell (at the clamped padded-to-interior positions of the cell's four
corners) is NaN, both triangles emitted for the cell are degenerate — the
cell's six indices are all equal — whatever values stray out-of-bounds
reads return. -/
theorem claim_C2_nan_forces_degenerate (res : ℕ) (hs : List (Option ℚ))
    (junk : ℤ → Option ℚ) (i j : ℕ) (hres : 2 ≤ res) (hlen : hs.length = res * res)
    (hi : i ≤ res) (hj : j ≤ res)
    (hnan :
      hs.getD ((nearestInterior res (j : ℤ) * res + nearestInterior res (i : ℤ)).toNat)
        none = none ∨
      hs.getD ((nearestInterior res (j : ℤ) * res + nearestInterior res ((i : ℤ) + 1)).toNat)
        none = none ∨
      hs.getD ((nearestInterior res ((j : ℤ) + 1) * res + nearestInterior res (i : ℤ)).toNat)
        none = none ∨
      hs.getD ((nearestInterior res ((j : ℤ) + 1) * res +
        nearestInterior res ((i : ℤ) + 1)).toNat) none = none) :
    cellBlock res (createPlaneIndexData res hs junk) i j =
      List.replicate 6 (j * (res + 2) + i) := by
  rw [cellBlock_indexData res hs junk (by omega) (by omega)]
  have hnd : hasNoData (i : ℤ) (j : ℤ) hs junk ((res : ℤ) + 2) ((res : ℤ) + 2) = true := by
    unfold hasNoData
    simp only [Bool.or_eq_true]
    have hres1 : 1 ≤ res := by omega
    have hi0 : (0 : ℤ) ≤ (i : ℤ) := by omega
    have hiR : (i : ℤ) ≤ res := by omega
    have hj0 : (0 : ℤ) ≤ (j : ℤ) := by omega
    have hjR : (j : ℤ) ≤ res := by omega
    rcases hnan with h1 | h2 | h3 | h4
    · exact Or.inl (Or.inl (Or.inl
        (hasNoData_corner_true res hs junk hres1 hlen hi0 hiR hj0 hjR h1)))
    · by_cases hitop : (i : ℤ) + 1 ≤ res
      · exact Or.inl (Or.inl (Or.inr
          (hasNoData_corner_true res hs junk hres1 hlen (by omega) hitop hj0 hjR h2)))
      · have e : nearestInterior res ((i : ℤ) + 1) = nearestInterior res (i : ℤ) := by
          unfold nearestInterior qBound; omega
        rw [e] at h2
        exact Or.inl (Or.inl (Or.inl
          (hasNoData_corner_true res hs junk hres1 hlen hi0 hiR hj0 hjR h2)))
    · by_cases hjtop : (j : ℤ) + 1 ≤ res
      · exact Or.inl (Or.inr
          (hasNoData_corner_true res hs junk hres1 hlen hi0 hiR (by omega) hjtop h3))
      · have e : nearestInterior res ((j : ℤ) + 1) = nearestInterior res (j : ℤ) := by
          unfold nearestInterior qBound; omega
        rw [e] at h3
        exact Or.inl (Or.inl (Or.inl
          (hasNoData_corner_true res hs junk hres1 hlen hi0 hiR hj0 hjR h3)))
    · by_cases hitop : (i : ℤ) + 1 ≤ res
      · by_cases hjtop : (j : ℤ) + 1 ≤ res
        · exact Or.inr
            (hasNoData_corner_true res hs junk hres1 hlen (by omega) hitop (by omega) hjtop h4)
        · have e : nearestInterior res ((j : ℤ) + 1) = nearestInterior res (j : ℤ) := by
            unfold nearestInterior qBound; omega
          rw [e] at h4
          exact Or.inl (Or.inl (Or.inr
            (hasNoData_corner_true res hs junk hres1 hlen (by omega) hitop hj0 hjR h4)))
      · have ei : nearestInterior res ((i : ℤ) + 1) = nearestInterior res (i : ℤ) := by
          unfold nearestInterior qBound; omega
        rw [ei] at h4
        by_cases hjtop : (j : ℤ) + 1 ≤ res
        · exact Or.inl (Or.inr
            (hasNoData_corner_true res hs junk hres1 hlen hi0 hiR (by omega) hjtop h4))
        · have ej : nearestInterior res ((j : ℤ) + 1) = nearestInterior res (j : ℤ) := by
            unfold nearestInterior qBound; omega
          rw [ej] at h4
          exact Or.inl (Or.inl (Or.inl
            (hasNoData_corner_true res hs junk hres1 hlen hi0 hiR hj0 hjR h4)))
  unfold cellIndices
  rw [if_pos hnd]
  rfl

/-- Witness for C2 at resolution 2, cell (0, 0), with the sample at
row-major index 0 set to NaN. -/
theorem claim_C2_nan_forces_degenerate_witness :
    cellBlock 2 (createPlaneIndexData 2 [none, some 2, some 3, some 4] (fun _ => some 0)) 0 0 =
      List.replicate 6 (0 * (2 + 2) + 0) :=
  claim_C2_nan_forces_degenerate 2 [none, some 2, some 3, some 4] (fun _ => some 0) 0 0
    (by norm_num) (by norm_num) (by norm_num) (by norm_num) (Or.inl (by decide))

/-- C10 (amended): for every cell whose four checked samples are valid, the
two emitted triangles are (TL, BL, TR) and (BL, BR, TR) — the edge shared by
the two triangles is the diagonal from the cell's BOTTOM-LEFT corner
(row+1)·numVerticesX + col to its TOP-RIGHT corner row·numVerticesX + col + 1
(not from top-left to bottom-right), with the same winding pattern for every
cell. -/
theorem claim_C10_amended_diagonal (res : ℕ) (hs : List (Option ℚ)) (junk : ℤ → Option ℚ)
    (i j : ℕ) (hres : 2 ≤ res) (hi : i ≤ res) (hj : j ≤ res)
    (hvalid : hasNoData (i : ℤ) (j : ℤ) hs junk ((res : ℤ) + 2) ((res : ℤ) + 2) = false) :
    cellBlock res (createPlaneIndexData res hs junk) i j =
      [j * (res + 2) + i, (j + 1) * (res + 2) + i, j * (res + 2) + i + 1,
       (j + 1) * (res + 2) + i, (j + 1) * (res + 2) + i + 1, j * (res + 2) + i + 1] ∧
    ((j + 1) * (res + 2) + i) ∈
      (cellBlock res (createPlaneIndexData res hs junk) i j).take 3 ∧
    ((j + 1) * (res + 2) + i) ∈
      (cellBlock res (createPlaneIndexData res hs junk) i j).drop 3 ∧
    (j * (res + 2) + i + 1) ∈
      (cellBlock res (createPlaneIndexData res hs junk) i j).take 3 ∧
    (j * (res + 2) + i + 1) ∈
      (cellBlock res (createPlaneIndexData res hs junk) i j).drop 3 := by
  have hblock : cellBlock res (createPlaneIndexData res hs junk) i j =
      [j * (res + 2) + i, (j + 1) * (res + 2) + i, j * (res + 2) + i + 1,
       (j + 1) * (res + 2) + i, (j + 1) * (res + 2) + i + 1, j * (res + 2) + i + 1] := by
    rw [cellBlock_indexData res hs junk (by omega) (by omega)]
    unfold cellIndices
    rw [if_neg (by rw [hvalid]; simp)]
  rw [hblock]
  refine ⟨rfl, by simp, by simp, by simp, by simp⟩

/-- Witness for the amended C10 at resolution 2, cell (0, 0), all-valid
samples. -/
theorem claim_C10_amended_diagonal_witness :
    cellBlock 2 (createPlaneIndexData 2 [some 1, some 2, some 3, some 4] (fun _ => some 0))
      0 0 =
      [0 * (2 + 2) + 0, (0 + 1) * (2 + 2) + 0, 0 * (2 + 2) + 0 + 1,
       (0 + 1) * (2 + 2) + 0, (0 + 1) * (2 + 2) + 0 + 1, 0 * (2 + 2) + 0 + 1] ∧
    ((0 + 1) * (2 + 2) + 0) ∈
      (cellBlock 2 (createPlaneIndexData 2 [some 1, some 2, some 3, some 4]
        (fun _ => some 0)) 0 0).take 3 ∧
    ((0 + 1) * (2 + 2) + 0) ∈
      (cellBlock 2 (createPlaneIndexData 2 [some 1, some 2, some 3, some 4]
        (fun _ => some 0)) 0 0).drop 3 ∧
    (0 * (2 + 2) + 0 + 1) ∈
      (cellBlock 2 (createPlaneIndexData 2 [some 1, some 2, some 3, some 4]
        (fun _ => some 0)) 0 0).take 3 ∧
    (0 * (2 + 2) + 0 + 1) ∈
      (cellBlock 2 (createPlaneIndexData 2 [some 1, some 2, some 3, some 4]
        (fun _ => some 0)) 0 0).drop 3 :=
  claim_C10_amended_diagonal 2 [some 1, some 2, some 3, some 4] (fun _ => some 0) 0 0
    (by norm_num) (by norm_num) (by norm_num) (by decide)

/-- Counterexample to C10 as stated: at resolution 2, cell (0, 0) of an
all-valid grid, the second triangle is [4, 5, 1]; the cell's top-left corner
index 0 is not one of its vertices, so the top-left-to-bottom-right diagonal
(0 to 5) is not the edge shared by the two triangles. -/
theorem claim_C10_counterexample :
    (cellBlock 2 (createPlaneIndexData 2 [some 1, some 2, some 3, some 4]
      (fun _ => some 0)) 0 0).drop 3 = [4, 5, 1] ∧
    ¬ ((0 : ℕ) ∈ [4, 5, 1]) ∧
    0 * (2 + 2) + 0 = 0 ∧ (0 + 1) * (2 + 2) + 0 + 1 = 5 := by decide

/-- C3 (code evaluated at the failing input): at resolution 2 (padded vertex
grid 4 × 4, heightmap of 4 samples), the no-data lookup for cell (0, 2) at
corner (0, 3) uses heightmap index 4, outside [0, 4) — the clamp upper bound
numVerticesX - 1 overshoots the interior by one — while the interior sample
nearest that corner has index 2; consequently the hasNoData answer for an
all-valid grid depends on what the out-of-bounds read returns. -/
theorem claim_C3_out_of_bounds_lookup :
    ijToHeightMapIndex 0 3 4 4 = 4 ∧
    ¬ (ijToHeightMapIndex 0 3 4 4 < (2 : ℤ) * 2) ∧
    ijToHeightMapIndex 3 3 4 4 = 6 ∧
    nearestInterior 2 3 * 2 + nearestInterior 2 0 = 2 ∧
    hasNoData 0 2 [some 1, some 2, some 3, some 4] (fun _ => none) 4 4 = true ∧
    hasNoData 0 2 [some 1, some 2, some 3, some 4] (fun _ => some 0) 4 4 = false := by
  decide

/-- C7 (code evaluated at the failing input): the vertex-buffer functor
compares unequal when the height maps differ, but the index-buffer functor
compares equal whenever the resolutions agree — even though the two builders
produce different index buffers (the sample NaN pattern changes the emitted
triangles), so equality is not value equality on the builder's inputs. -/
theorem claim_C7_index_functor_ignores_heightmap :
    planeVertexBufferFunctorEq ⟨2, 5, [some 1, some 2, some 3, some 4]⟩
      ⟨2, 5, [some 1, none, some 3, some 4]⟩ = false ∧
    planeIndexBufferFunctorEq ⟨2, [some 1, some 2, some 3, some 4]⟩
      ⟨2, [some 1, none, some 3, some 4]⟩ = true ∧
    ([some 1, some 2, some 3, some 4] : List (Option ℚ)) ≠ [some 1, none, some 3, some 4] ∧
    planeIndexBufferFunctorRun ⟨2, [some 1, some 2, some 3, some 4]⟩ (fun _ => some 0) ≠
      planeIndexBufferFunctorRun ⟨2, [some 1, none, some 3, some 4]⟩ (fun _ => some 0) := by
  decide

lemma foldl_congr_mem {α β : Type} (f g : β → α → β) :
    ∀ (L : List α) (b : β), (∀ a ∈ L, ∀ x, f x a = g x a) → L.foldl f b = L.foldl g b := by
  intro L
  induction L with
  | nil => intro b _; rfl
  | cons a t ih =>
    intro b h
    simp only [List.foldl_cons]
    rw [h a (List.mem_cons_self a t)]
    exact ih _ (fun a2 ha2 x => h a2 (List.mem_cons_of_mem a ha2) x)

lemma getD_take_of_lt {α : Type} (l : List α) (d : α) {m L : ℕ} (h : m < L) :
    (l.take L).getD m d = l.getD m d := by
  rw [List.getD_eq_getElem?_getD, List.getD_eq_getElem?_getD, List.getElem?_take, if_pos h]

lemma demScan_invariant (rti : Ray3D → V3 → V3 → V3 → Option ℚ) (vb : List ℚ)
    (ib : List ℕ) (vjunk : ℕ → ℚ) (r : Ray3D) (M : V3 → V3)
    (H : ∀ k, k < ib.length / 3 → ∀ d p, triTest rti vb ib vjunk r M k = some (d, p) → 0 ≤ d) :
    ∀ n, n ≤ ib.length / 3 → ∀ st,
      (List.range n).foldl (triangleStep rti vb ib vjunk r M)
        (-1, ((0 : ℚ), (0 : ℚ), (0 : ℚ))) = st →
      ((st = (-1, ((0 : ℚ), (0 : ℚ), (0 : ℚ))) ∧
          ∀ k, k < n → triTest rti vb ib vjunk r M k = none) ∨
       (0 ≤ st.1 ∧ (∃ k, k < n ∧ triTest rti vb ib vjunk r M k = some (st.1, st.2)) ∧
        ∀ k, k < n → ∀ d p, triTest rti vb ib vjunk r M k = some (d, p) → st.1 ≤ d)) := by
  intro n
  induction n with
  | zero =>
    intro _ st hst
    left
    exact ⟨hst.symm, fun k hk => absurd hk (by omega)⟩
  | succ n ih =>
    intro hn st hst
    rw [List.range_succ, List.foldl_append, List.foldl_cons, List.foldl_nil] at hst
    have hrec := ih (by omega) _ rfl
    cases htn : triTest rti vb ib vjunk r M n with
    | none =>
      have hstep : st = (List.range n).foldl (triangleStep rti vb ib vjunk r M)
          (-1, ((0 : ℚ), (0 : ℚ), (0 : ℚ))) := by
        rw [← hst]
        unfold triangleStep
        rw [htn]
      rcases hrec with ⟨h1, h2⟩ | ⟨h1, h2, h3⟩
      · left
        refine ⟨hstep.trans h1, fun k hk => ?_⟩
        rcases Nat.lt_succ_iff_lt_or_eq.mp hk with hk2 | hk2
        · exact h2 k hk2
        · rw [hk2]; exact htn
      · right
        rw [hstep]
        refine ⟨h1, ?_, fun k hk d p htp => ?_⟩
        · obtain ⟨k0, hk0, hk0t⟩ := h2
          exact ⟨k0, by omega, hk0t⟩
        · rcases Nat.lt_succ_iff_lt_or_eq.mp hk with hk2 | hk2
          · exact h3 k hk2 d p htp
          · rw [hk2] at htp; rw [htp] at htn; cases htn
    | some dp =>
      obtain ⟨d, p⟩ := dp
      have hd0 : 0 ≤ d := H n (by omega) d p htn
      have hstep : st = if ((List.range n).foldl (triangleStep rti vb ib vjunk r M)
          (-1, ((0 : ℚ), (0 : ℚ), (0 : ℚ)))).1 = -1 ∨
          d < ((List.range n).foldl (triangleStep rti vb ib vjunk r M)
            (-1, ((0 : ℚ), (0 : ℚ), (0 : ℚ)))).1 then (d, p)
          else (List.range n).foldl (triangleStep rti vb ib vjunk r M)
            (-1, ((0 : ℚ), (0 : ℚ), (0 : ℚ))) := by
        rw [← hst]
        unfold triangleStep
        rw [htn]
      rcases hrec with ⟨h1, h2⟩ | ⟨h1, h2, h3⟩
      · have hcond : st = (d, p) := by
          rw [hstep, if_pos (Or.inl (by rw [h1]))]
        right
        rw [hcond]
        refine ⟨hd0, ⟨n, by omega, htn⟩, fun k hk d2 p2 ht2 => ?_⟩
        rcases Nat.lt_succ_iff_lt_or_eq.mp hk with hk2 | hk2
        · rw [h2 k hk2] at ht2; cases ht2
        · rw [hk2] at ht2; rw [ht2] at htn
          injection htn with htn1
          injection htn1 with he1 he2
          rw [he1]
      · have hne : ¬ ((List.range n).foldl (triangleStep rti vb ib vjunk r M)
            (-1, ((0 : ℚ), (0 : ℚ), (0 : ℚ)))).1 = -1 := by
          intro hcontra
          rw [hcontra] at h1
          norm_num at h1
        by_cases hlt : d < ((List.range n).foldl (triangleStep rti vb ib vjunk r M)
            (-1, ((0 : ℚ), (0 : ℚ), (0 : ℚ)))).1
        · have hcond : st = (d, p) := by rw [hstep, if_pos (Or.inr hlt)]
          right
          rw [hcond]
          refine ⟨hd0, ⟨n, by omega, htn⟩, fun k hk d2 p2 ht2 => ?_⟩
          rcases Nat.lt_succ_iff_lt_or_eq.mp hk with hk2 | hk2
          · exact le_trans (le_of_lt hlt) (h3 k hk2 d2 p2 ht2)
          · rw [hk2] at ht2; rw [ht2] at htn
            injection htn with htn1
            injection htn1 with he1 he2
            rw [he1]
        · have hcond : st = (List.range n).foldl (triangleStep rti vb ib vjunk r M)
              (-1, ((0 : ℚ), (0 : ℚ), (0 : ℚ))) := by
            rw [hstep, if_neg (by push_neg; exact ⟨hne, le_of_not_lt hlt⟩)]
          right
          rw [hcond]
          refine ⟨h1, ?_, fun k hk d2 p2 ht2 => ?_⟩
          · obtain ⟨k0, hk0, hk0t⟩ := h2
            exact ⟨k0, by omega, hk0t⟩
          · rcases Nat.lt_succ_iff_lt_or_eq.mp hk with hk2 | hk2
            · exact h3 k hk2 d2 p2 ht2
            · rw [hk2] at ht2; rw [ht2] at htn
              injection htn with htn1
              injection htn1 with he1 he2
              rw [he1]
              exact le_of_not_lt hlt

/-- C4: for well-formed buffers, the intersector returns a point exactly
when at least one index triple passes the ray-triangle test (the external
primitive being assumed to report hits at nonnegative projected distance,
as a hit within the ray segment always is); the returned point is the
recomputed hit point origin + t·length·direction of a passing triangle whose
projected distance along the ray is smallest among all hits. -/
theorem claim_C4_closest_hit (rti : Ray3D → V3 → V3 → V3 → Option ℚ) (vb : List ℚ)
    (ib : List ℕ) (vjunk : ℕ → ℚ) (r : Ray3D) (M : V3 → V3)
    (hwf1 : 8 ∣ vb.length) (hwf2 : 3 ∣ ib.length)
    (hwf3 : ∀ k, k < ib.length → ib.getD k 0 * 8 + 2 < vb.length)
    (H : ∀ k, k < ib.length / 3 → ∀ d p, triTest rti vb ib vjunk r M k = some (d, p) → 0 ≤ d) :
    (intersectionDemTriangles rti vb ib vjunk r M = none ↔
      ∀ k, k < ib.length / 3 → triTest rti vb ib vjunk r M k = none) ∧
    (∀ p, intersectionDemTriangles rti vb ib vjunk r M = some p →
      ∃ k, k < ib.length / 3 ∧ ∃ d, triTest rti vb ib vjunk r M k = some (d, p) ∧
        ∀ k2, k2 < ib.length / 3 → ∀ d2 p2,
          triTest rti vb ib vjunk r M k2 = some (d2, p2) → d ≤ d2) := by
  have hinv := demScan_invariant rti vb ib vjunk r M H (ib.length / 3) le_rfl _ rfl
  rcases hinv with ⟨hst, hnone⟩ | ⟨hpos, ⟨k0, hk0, hkt⟩, hmin⟩
  · have hres0 : intersectionDemTriangles rti vb ib vjunk r M = none := by
      unfold intersectionDemTriangles
      rw [hst]
      norm_num
    refine ⟨⟨fun _ => hnone, fun _ => hres0⟩, fun p hp => ?_⟩
    rw [hres0] at hp
    cases hp
  · have hne : ((List.range (ib.length / 3)).foldl (triangleStep rti vb ib vjunk r M)
        (-1, ((0 : ℚ), (0 : ℚ), (0 : ℚ)))).1 ≠ -1 := by
      intro hcontra
      rw [hcontra] at hpos
      norm_num at hpos
    have hres2 : intersectionDemTriangles rti vb ib vjunk r M =
        some ((List.range (ib.length / 3)).foldl (triangleStep rti vb ib vjunk r M)
          (-1, ((0 : ℚ), (0 : ℚ), (0 : ℚ)))).2 := by
      unfold intersectionDemTriangles
      rw [if_pos hne]
    constructor
    · constructor
      · intro h
        rw [hres2] at h
        cases h
      · intro hall
        exact absurd hkt (by rw [hall k0 hk0]; intro h; cases h)
    · intro p hp
      rw [hres2] at hp
      injection hp with hp2
      refine ⟨k0, hk0, _, by rw [hp2] at hkt; exact hkt, fun k2 hk2 d2 p2 ht2 => ?_⟩
      exact hmin k2 hk2 d2 p2 ht2

/-- Witness for C4 with a well-formed one-triangle mesh and a primitive that
reports no hit. -/
theorem claim_C4_closest_hit_witness :
    (intersectionDemTriangles (fun _ _ _ _ => none)
        [0, 0, 0, 0, 0, 0, 0, 0] [0, 0, 0] (fun _ => 0)
        ⟨(0, 0, 0), (0, 0, 1), 1⟩ (fun v => v) = none ↔
      ∀ k, k < ([0, 0, 0] : List ℕ).length / 3 →
        triTest (fun _ _ _ _ => none) [0, 0, 0, 0, 0, 0, 0, 0] [0, 0, 0] (fun _ => 0)
          ⟨(0, 0, 0), (0, 0, 1), 1⟩ (fun v => v) k = none) ∧
    (∀ p, intersectionDemTriangles (fun _ _ _ _ => none)
        [0, 0, 0, 0, 0, 0, 0, 0] [0, 0, 0] (fun _ => 0)
        ⟨(0, 0, 0), (0, 0, 1), 1⟩ (fun v => v) = some p →
      ∃ k, k < ([0, 0, 0] : List ℕ).length / 3 ∧
        ∃ d, triTest (fun _ _ _ _ => none) [0, 0, 0, 0, 0, 0, 0, 0] [0, 0, 0] (fun _ => 0)
          ⟨(0, 0, 0), (0, 0, 1), 1⟩ (fun v => v) k = some (d, p) ∧
          ∀ k2, k2 < ([0, 0, 0] : List ℕ).length / 3 → ∀ d2 p2,
            triTest (fun _ _ _ _ => none) [0, 0, 0, 0, 0, 0, 0, 0] [0, 0, 0] (fun _ => 0)
              ⟨(0, 0, 0), (0, 0, 1), 1⟩ (fun v => v) k2 = some (d2, p2) → d ≤ d2) :=
  claim_C4_closest_hit (fun _ _ _ _ => none) [0, 0, 0, 0, 0, 0, 0, 0] [0, 0, 0] (fun _ => 0)
    ⟨(0, 0, 0), (0, 0, 1), 1⟩ (fun v => v) (by decide) (by decide)
    (by decide)
    (fun k hk d p ht => by
      unfold triTest at ht
      cases ht)

lemma triTest_take (rti : Ray3D → V3 → V3 → V3 → Option ℚ) (vb : List ℚ) (ib : List ℕ)
    (vjunk : ℕ → ℚ) (r : Ray3D) (M : V3 → V3) {k : ℕ} (hk : k < ib.length / 3) :
    triTest rti vb (ib.take (3 * (ib.length / 3))) vjunk r M k =
      triTest rti vb ib vjunk r M k := by
  unfold triTest
  have h0 : k * 3 < 3 * (ib.length / 3) := by omega
  have h1 : k * 3 + 1 < 3 * (ib.length / 3) := by omega
  have h2 : k * 3 + 2 < 3 * (ib.length / 3) := by omega
  rw [getD_take_of_lt ib 0 h0, getD_take_of_lt ib 0 h1, getD_take_of_lt ib 0 h2]

/-- C8 (amended): the intersector does no defensive validation — the
divisibility preconditions exist only as debug assertions, the scan simply
processes ⌊indexCount/3⌋ triples so its result is determined by the first
3·⌊indexCount/3⌋ indices whatever the divisibility, and out-of-range vertex
indices read past the buffer (junk) instead of being rejected. -/
theorem claim_C8_amended_no_validation (rti : Ray3D → V3 → V3 → V3 → Option ℚ)
    (vb : List ℚ) (ib : List ℕ) (vjunk : ℕ → ℚ) (r : Ray3D) (M : V3 → V3) :
    intersectionDemTriangles rti vb ib vjunk r M =
      intersectionDemTriangles rti vb (ib.take (3 * (ib.length / 3))) vjunk r M := by
  unfold intersectionDemTriangles
  have hlen : (ib.take (3 * (ib.length / 3))).length = 3 * (ib.length / 3) := by
    rw [List.length_take]
    refine min_eq_left ?_
    calc 3 * (ib.length / 3) = ib.length / 3 * 3 := by ring
      _ ≤ ib.length := Nat.div_mul_le_self _ _
  rw [hlen]
  have hq : 3 * (ib.length / 3) / 3 = ib.length / 3 :=
    Nat.mul_div_cancel_left _ (by norm_num)
  rw [hq]
  have hfold : (List.range (ib.length / 3)).foldl (triangleStep rti vb ib vjunk r M)
      (-1, ((0 : ℚ), (0 : ℚ), (0 : ℚ))) =
      (List.range (ib.length / 3)).foldl
        (triangleStep rti vb (ib.take (3 * (ib.length / 3))) vjunk r M)
        (-1, ((0 : ℚ), (0 : ℚ), (0 : ℚ))) := by
    apply foldl_congr_mem
    intro a ha x
    unfold triangleStep
    rw [triTest_take rti vb ib vjunk r M (List.mem_range.mp ha)]
  rw [hfold]

/-- Counterexample to C8 as stated: a malformed input — 9 floats (not a
multiple of 8) and 4 indices (not a multiple of 3) — is not rejected: the
intersector still returns an intersection point. -/
theorem claim_C8_counterexample :
    ¬ (8 ∣ ([0, 0, 0, 0, 0, 0, 0, 0, 0] : List ℚ).length) ∧
    ¬ (3 ∣ ([0, 0, 0, 0] : List ℕ).length) ∧
    intersectionDemTriangles (fun _ _ _ _ => some 1)
      [0, 0, 0, 0, 0, 0, 0, 0, 0] [0, 0, 0, 0] (fun _ => 0)
      ⟨(0, 0, 0), (0, 0, 1), 1⟩ (fun v => v) = some ((0 : ℚ), (0 : ℚ), (1 : ℚ)) := by
  refine ⟨by decide, by decide, ?_⟩
  norm_num [intersectionDemTriangles, triangleStep, triTest, triVertex, vread,
    Ray3D.point, Ray3D.projectedDistance, v3add, v3sub, v3smul, v3dot, List.range_succ]
